import Mathlib

/-!
Verification of the URL-shortener core: short-code allocation, TTL
expiration, lookup, listing and deletion, as implemented in
`app/services/url_service.py`, `app/services/utils.py` and
`app/repositories/url_repository.py`.

Time is modelled in seconds since the epoch as `Int`.  A Python
`datetime` is a wall-clock reading together with an optional UTC offset
(`tzinfo`); an aware datetime denotes the UTC instant `wall - offset`,
and comparison of aware datetimes compares these instants.  The database
is modelled as the ordered list of stored rows.  The random code
generator is modelled as an abstract stream `gen : Nat → String` giving
the candidate produced on each attempt, and the current clock reading is
passed explicitly where the Python code calls `datetime.now`.
-/

set_option autoImplicit false

/-- A Python `datetime`: a wall-clock value (seconds) plus an optional
UTC offset carried by `tzinfo` (`none` = naive). -/
structure PyDatetime where
  wall : Int
  tzinfo : Option Int
deriving Repr, DecidableEq

/-- The UTC instant an aware datetime denotes (`wall - offset`). -/
def PyDatetime.instant (d : PyDatetime) : Int :=
  d.wall - d.tzinfo.getD 0

/-- An aware UTC datetime at instant `t` (offset 0), as produced by
`get_current_utc_time` in the source. -/
def PyDatetime.utc (t : Int) : PyDatetime :=
  ⟨t, some 0⟩

/-- A row of the `urls` table (`app/models/url.py`). -/
structure URL where
  id : Nat
  original_url : String
  short_code : String
  created_at : PyDatetime
deriving Repr, DecidableEq

/-- `is_url_expired` from `app/services/utils.py`: a naive `created_at`
gets `tzinfo=UTC` attached, then the record is expired iff the current
time is strictly later than `created_at + ttl_minutes` minutes. -/
def is_url_expired (created_at : PyDatetime) (ttl_minutes : Nat) (now : Int) : Bool :=
  let ca := if created_at.tzinfo.isNone then { created_at with tzinfo := some 0 } else created_at
  let expiration_time : PyDatetime := { ca with wall := ca.wall + 60 * ttl_minutes }
  decide (now > expiration_time.instant)

namespace URLRepository

/-- `URLRepository.get_by_short_code`: first row matching the code
(`query.filter(...).first()`). -/
def get_by_short_code (short_code : String) (db : List URL) : Option URL :=
  db.find? (fun u => u.short_code == short_code)

/-- `URLRepository.short_code_exists`: `count() > 0` over rows matching
the code. -/
def short_code_exists (short_code : String) (db : List URL) : Bool :=
  decide ((db.filter (fun u => u.short_code == short_code)).length > 0)

/-- The autoincrement id the storage assigns to the next row. -/
def next_id (db : List URL) : Nat :=
  db.foldr (fun u acc => max acc (u.id + 1)) 1

/-- `URLRepository.create`: inserts a new row with server-assigned id and
`created_at = get_current_utc_time()`, and returns it. -/
def create (original_url short_code : String) (now : Int) (db : List URL) :
    URL × List URL :=
  let db_url : URL := ⟨next_id db, original_url, short_code, PyDatetime.utc now⟩
  (db_url, db ++ [db_url])

/-- `URLRepository.get_all`: all rows. -/
def get_all (db : List URL) : List URL :=
  db

/-- `URLRepository.delete_by_short_code`: looks the code up; if found,
deletes that row and returns `true`, else returns `false`. -/
def delete_by_short_code (short_code : String) (db : List URL) :
    Bool × List URL :=
  match get_by_short_code short_code db with
  | some _ => (true, db.eraseP (fun u => u.short_code == short_code))
  | none => (false, db)

/-- `URLRepository.delete_expired`: computes
`expiration_time = now - ttl_minutes` minutes and deletes every row with
`created_at < expiration_time`, returning how many were deleted.  There
is no special case for `ttl_minutes = 0`. -/
def delete_expired (ttl_minutes : Nat) (now : Int) (db : List URL) :
    Nat × List URL :=
  let expiration_time : Int := now - 60 * ttl_minutes
  let expired := db.filter (fun u => decide (u.created_at.instant < expiration_time))
  (expired.length, db.filter (fun u => !decide (u.created_at.instant < expiration_time)))

end URLRepository

/-- The storage interface the allocation loop consumes, so that the loop
can be studied against the real list-backed repository as well as
stubbed stores.  `create` may fail (a Python exception carrying a
message), in which case the Python call raises through the loop. -/
structure RecordStore (σ : Type) where
  existsCode : String → σ → Bool
  createRow : String → String → σ → Except String (URL × σ)

/-- How `create_short_url` can fail: empty input, the 10-attempt bound
exhausted, or an exception propagating out of the store's `create`. -/
inductive AllocError where
  | invalidInput : AllocError
  | exhausted : AllocError
  | storage : String → AllocError
deriving Repr, DecidableEq

/-- Collaborator calls the allocation loop makes: one `genCall` per
`generate_short_code()` invocation, one `createCall` per
`repository.create` invocation. -/
inductive AllocEvent where
  | genCall : String → AllocEvent
  | createCall : String → String → AllocEvent
deriving Repr, DecidableEq

/-- The retry loop of `URLService.create_short_url`: on each attempt,
generate a candidate, check `short_code_exists`; if absent, call
`create` and return its result (an exception from `create` propagates —
the source has no handler around it); if present, retry.  Counting down
the remaining attempts; falls off the loop into
`raise ValueError("Failed to generate unique short code")`.  Alongside
the result, the trace of generator/create calls is recorded. -/
def allocLoop {σ : Type} (S : RecordStore σ) (gen : Nat → String)
    (original_url : String) (s : σ) (attempt : Nat) :
    Nat → Except AllocError (URL × σ) × List AllocEvent
  | 0 => (.error .exhausted, [])
  | fuel + 1 =>
    let code := gen attempt
    if S.existsCode code s then
      let (r, tr) := allocLoop S gen original_url s (attempt + 1) fuel
      (r, .genCall code :: tr)
    else
      match S.createRow original_url code s with
      | .ok us => (.ok us, [.genCall code, .createCall original_url code])
      | .error e => (.error (.storage e), [.genCall code, .createCall original_url code])

/-- Python's `str.strip()`: the characters of `s` with leading and
trailing whitespace removed. -/
def pyStrip (s : String) : List Char :=
  ((s.toList.dropWhile Char.isWhitespace).reverse.dropWhile Char.isWhitespace).reverse

/-- `URLService.create_short_url`: rejects an empty or all-whitespace
URL (`not original_url or len(original_url.strip()) == 0`), then runs
the allocation loop with `max_attempts = 10`. -/
def create_short_url {σ : Type} (S : RecordStore σ) (gen : Nat → String)
    (original_url : String) (s : σ) :
    Except AllocError (URL × σ) × List AllocEvent :=
  if original_url == "" || (pyStrip original_url).length == 0 then
    (.error .invalidInput, [])
  else
    allocLoop S gen original_url s 0 10

/-- The real repository as a `RecordStore` over the list state: `exists`
is `short_code_exists` and `create` is `URLRepository.create`, which
never raises in this model. -/
def listStore (now : Int) : RecordStore (List URL) where
  existsCode := URLRepository.short_code_exists
  createRow := fun original_url code db =>
    .ok (URLRepository.create original_url code now db)

/-- `URLService.get_url_by_code`: looks the code up; if found and
expired, deletes it and returns `None`; otherwise returns the lookup
result unchanged. -/
def get_url_by_code (ttl_minutes : Nat) (now : Int) (short_code : String)
    (db : List URL) : Option URL × List URL :=
  match URLRepository.get_by_short_code short_code db with
  | some u =>
    if is_url_expired u.created_at ttl_minutes now then
      (none, (URLRepository.delete_by_short_code short_code db).2)
    else
      (some u, db)
  | none => (none, db)

/-- The loop body of `URLService.get_all_urls`: iterates over the
snapshot returned by `get_all`, appending non-expired rows to the result
and deleting each expired row by its code.  Returns the valid rows, the
final database, and the trace of codes passed to
`delete_by_short_code`. -/
def get_all_urls_loop (ttl_minutes : Nat) (now : Int) :
    List URL → List URL → List URL × List URL × List String
  | [], db => ([], db, [])
  | u :: rest, db =>
    if is_url_expired u.created_at ttl_minutes now then
      let (valid, db2, dels) :=
        get_all_urls_loop ttl_minutes now rest
          (URLRepository.delete_by_short_code u.short_code db).2
      (valid, db2, u.short_code :: dels)
    else
      let (valid, db2, dels) := get_all_urls_loop ttl_minutes now rest db
      (u :: valid, db2, dels)

/-- `URLService.get_all_urls`: fetches all rows, then filters out and
deletes expired ones. -/
def get_all_urls (ttl_minutes : Nat) (now : Int) (db : List URL) :
    List URL × List URL × List String :=
  get_all_urls_loop ttl_minutes now (URLRepository.get_all db) db

/-- `URLService.delete_url`: delegates to
`URLRepository.delete_by_short_code`.  Note it takes no TTL or clock:
there is no expiration check. -/
def delete_url (short_code : String) (db : List URL) : Bool × List URL :=
  URLRepository.delete_by_short_code short_code db

/-- `URLService.cleanup_expired_urls`: delegates to
`URLRepository.delete_expired` with the configured TTL. -/
def cleanup_expired_urls (ttl_minutes : Nat) (now : Int) (db : List URL) :
    Nat × List URL :=
  URLRepository.delete_expired ttl_minutes now db

/-- Number of `generate_short_code` calls in a trace. -/
def countGen (tr : List AllocEvent) : Nat :=
  (tr.filter fun e => match e with | .genCall _ => true | _ => false).length

/-- Number of `repository.create` calls in a trace. -/
def countCreate (tr : List AllocEvent) : Nat :=
  (tr.filter fun e => match e with | .createCall _ _ => true | _ => false).length

/-! ### Stubbed stores used to exercise the allocation loop -/

/-- A store whose `exists` check never fires but whose `create` always
fails with a duplicate-key error, exercising the race the spec
discusses. -/
def dupStore : RecordStore Unit where
  existsCode := fun _ _ => false
  createRow := fun _ _ _ => .error "duplicate key"

/-- A store reporting `exists = true` for every candidate code. -/
def allTaken : RecordStore Unit where
  existsCode := fun _ _ => true
  createRow := fun _ _ _ => .error "unused"

/-! ### C1: behaviour at TTL = 0 -/

/-- Claim C1: the code does not disable expiration at TTL = 0.  For a
record created at instant 0 and clock reading 60, `cleanup_expired_urls`
with TTL = 0 deletes the record and returns 1 (not 0), and
`get_url_by_code` with TTL = 0 treats the record as expired and returns
`none` — contradicting the claim (and `settings.py`'s own comment that
TTL = 0 means URLs never expire). -/
theorem c1_ttl_zero_not_disabled :
    (cleanup_expired_urls 0 60
      [⟨1, "https://example.com", "abc123", PyDatetime.utc 0⟩]).1 = 1 ∧
    (cleanup_expired_urls 0 60
      [⟨1, "https://example.com", "abc123", PyDatetime.utc 0⟩]).2 = [] ∧
    (get_url_by_code 0 60 "abc123"
      [⟨1, "https://example.com", "abc123", PyDatetime.utc 0⟩]).1 = none := by
  refine ⟨rfl, rfl, rfl⟩

/-! ### C2: a duplicate-key failure of `create` during allocation -/

/-- Claim C2 counterexample: with a store on which the candidate passes
the `exists` pre-check but `create` fails with a duplicate-key error,
`create_short_url` surfaces the storage failure to the caller after a
single generation attempt — it does not retry with a fresh candidate as
the claim states. -/
theorem c2_counterexample :
    create_short_url dupStore (fun _ => "abc123") "https://example.com" () =
      (.error (.storage "duplicate key"),
       [.genCall "abc123", .createCall "https://example.com" "abc123"]) := rfl

/-- Claim C2 (amended): when the store's `create` fails on an attempt,
the allocation loop stops immediately and surfaces that failure to the
caller as a hard `storage` error — the trace shows no further generation
attempt.  Only a positive `exists` pre-check triggers a retry. -/
theorem c2_create_failure_surfaces {σ : Type} (S : RecordStore σ)
    (gen : Nat → String) (u : String) (s : σ) (attempt fuel : Nat) (e : String)
    (hex : S.existsCode (gen attempt) s = false)
    (hcr : S.createRow u (gen attempt) s = .error e) :
    allocLoop S gen u s attempt (fuel + 1) =
      (.error (.storage e),
       [.genCall (gen attempt), .createCall u (gen attempt)]) := by
  simp [allocLoop, hex, hcr]

/-- Witness for C2's amended theorem at the concrete duplicate-key
store. -/
theorem c2_witness :
    allocLoop dupStore (fun _ => "abc123") "https://example.com" () 0 10 =
      (.error (.storage "duplicate key"),
       [.genCall "abc123", .createCall "https://example.com" "abc123"]) :=
  c2_create_failure_surfaces dupStore (fun _ => "abc123") "https://example.com"
    () 0 9 "duplicate key" rfl rfl

/-! ### C3: allocation exhaustion -/

/-- With every candidate reported as existing, the loop consumes all its
attempts generating codes, never calls `create`, and fails exhausted. -/
theorem allocLoop_all_taken {σ : Type} (S : RecordStore σ) (gen : Nat → String)
    (u : String) (h : ∀ c st, S.existsCode c st = true) :
    ∀ (fuel attempt : Nat) (s : σ),
      (allocLoop S gen u s attempt fuel).1 = .error .exhausted ∧
      countGen (allocLoop S gen u s attempt fuel).2 = fuel ∧
      countCreate (allocLoop S gen u s attempt fuel).2 = 0 := by
  intro fuel
  induction fuel with
  | zero =>
    intro attempt s
    refine ⟨rfl, rfl, rfl⟩
  | succ n ih =>
    intro attempt s
    obtain ⟨h1, h2, h3⟩ := ih (attempt + 1) s
    rcases hres : allocLoop S gen u s (attempt + 1) n with ⟨r, tr⟩
    rw [hres] at h1 h2 h3
    simp only [allocLoop, h, if_true, hres]
    simp only [countGen, countCreate, List.filter] at h1 h2 h3 ⊢
    simp_all

/-- Claim C3: if the store reports `exists = true` for every candidate,
`create_short_url` on a non-blank URL fails with the exhaustion error
(`ValueError("Failed to generate unique short code")`) after exactly 10
code-generation attempts and performs no `create` call. -/
theorem c3_allocation_exhaustion {σ : Type} (S : RecordStore σ)
    (gen : Nat → String) (u : String) (s : σ)
    (hu : (u == "" || (pyStrip u).length == 0) = false)
    (h : ∀ c st, S.existsCode c st = true) :
    (create_short_url S gen u s).1 = .error .exhausted ∧
    countGen (create_short_url S gen u s).2 = 10 ∧
    countCreate (create_short_url S gen u s).2 = 0 := by
  simp only [create_short_url, hu, Bool.false_eq_true, if_false]
  exact allocLoop_all_taken S gen u h 10 0 s

/-- Witness for C3 on the all-taken store. -/
theorem c3_witness :
    (("https://example.com" == "" || (pyStrip "https://example.com").length == 0) = false) ∧
    ((create_short_url allTaken (fun i => toString i) "https://example.com" ()).1 =
        .error .exhausted ∧
      countGen (create_short_url allTaken (fun i => toString i) "https://example.com" ()).2 = 10 ∧
      countCreate (create_short_url allTaken (fun i => toString i) "https://example.com" ()).2 = 0) :=
  ⟨rfl, c3_allocation_exhaustion allTaken (fun i => toString i)
    "https://example.com" () rfl (fun _ _ => rfl)⟩

/-! ### C5: the expiration boundary of `resolve` -/

/-- Claim C5: for a record stored under `code` and created at UTC
instant `t0`, `get_url_by_code` with TTL `T` minutes returns the record
for every query time `now ≤ t0 + 60 T` and absent for every
`now > t0 + 60 T` — the expiry comparison is strict, so a query at
exactly `t0 + T` minutes still succeeds. -/
theorem c5_expiration_boundary (T : Nat) (t0 now : Int) (db : List URL)
    (r : URL) (code : String)
    (hfind : URLRepository.get_by_short_code code db = some r)
    (hca : r.created_at = PyDatetime.utc t0) :
    (get_url_by_code T now code db).1 =
      if now > t0 + 60 * T then none else some r := by
  have hexp : is_url_expired r.created_at T now = decide (now > t0 + 60 * T) := by
    rw [hca]
    simp [is_url_expired, PyDatetime.utc, PyDatetime.instant, decide_eq_decide]
  simp only [get_url_by_code, hfind]
  rw [hexp]
  by_cases h : now > t0 + 60 * T
  · simp [h]
  · simp [h]

/-- The concrete record used by witnesses: code `abc123`, created at UTC
instant 0. -/
def sampleURL : URL :=
  ⟨1, "https://example.com", "abc123", PyDatetime.utc 0⟩

/-- Witness for C5 at a concrete record: TTL = 1 minute, created at
instant 0, present at `now = 60`, absent at `now = 61`. -/
theorem c5_witness :
    (get_url_by_code 1 60 "abc123" [sampleURL]).1 = some sampleURL ∧
    (get_url_by_code 1 61 "abc123" [sampleURL]).1 = none :=
  ⟨(c5_expiration_boundary 1 0 60 [sampleURL] sampleURL "abc123" rfl rfl).trans
      (by decide),
   (c5_expiration_boundary 1 0 61 [sampleURL] sampleURL "abc123" rfl rfl).trans
      (by decide)⟩

/-! ### C6: what `resolve` does on expired vs live records -/

/-- Claim C6: when the lookup finds a record, `get_url_by_code` deletes
it via `delete_by_short_code` and returns absent if it is expired, and
returns it unchanged with the storage untouched if it is not. -/
theorem c6_resolve_expiry_action (ttl : Nat) (now : Int) (code : String)
    (db : List URL) (u : URL)
    (hfind : URLRepository.get_by_short_code code db = some u) :
    (is_url_expired u.created_at ttl now = true →
      get_url_by_code ttl now code db =
        (none, (URLRepository.delete_by_short_code code db).2)) ∧
    (is_url_expired u.created_at ttl now = false →
      get_url_by_code ttl now code db = (some u, db)) := by
  unfold get_url_by_code
  rw [hfind]
  constructor
  · intro h
    simp [h]
  · intro h
    simp [h]

/-- Witness for C6 at a concrete record, hitting both branches. -/
theorem c6_witness :
    get_url_by_code 1 61 "abc123" [sampleURL] =
      (none, (URLRepository.delete_by_short_code "abc123" [sampleURL]).2) ∧
    get_url_by_code 1 60 "abc123" [sampleURL] = (some sampleURL, [sampleURL]) :=
  ⟨(c6_resolve_expiry_action 1 61 "abc123" [sampleURL] sampleURL rfl).1 rfl,
   (c6_resolve_expiry_action 1 60 "abc123" [sampleURL] sampleURL rfl).2 rfl⟩

/-! ### C10: naive timestamps are interpreted as UTC -/

/-- Claim C10: a naive `created_at` (no `tzinfo`) is interpreted as UTC
by the expiration check, so a naive timestamp and an aware timestamp
denoting the same UTC instant (wall `w + off` at offset `off` equals
naive `w` read as UTC) receive the same expiration verdict for every TTL
and every clock reading. -/
theorem c10_naive_treated_as_utc (w off : Int) (ttl : Nat) (now : Int) :
    is_url_expired ⟨w, none⟩ ttl now = is_url_expired ⟨w + off, some off⟩ ttl now := by
  simp only [is_url_expired, PyDatetime.instant]
  simp [decide_eq_decide]
  omega

/-! ### C9: `remove` semantics -/

/-- When found, `delete_by_short_code` removes the first row with the
code and reports `true`. -/
theorem delete_found (code : String) (db : List URL) (v : URL)
    (h : URLRepository.get_by_short_code code db = some v) :
    URLRepository.delete_by_short_code code db =
      (true, db.eraseP (fun u => u.short_code == code)) := by
  unfold URLRepository.delete_by_short_code
  rw [h]

/-- When not found, `delete_by_short_code` reports `false` and leaves
the storage unchanged. -/
theorem delete_not_found (code : String) (db : List URL)
    (h : URLRepository.get_by_short_code code db = none) :
    URLRepository.delete_by_short_code code db = (false, db) := by
  unfold URLRepository.delete_by_short_code
  rw [h]

/-- Under distinct stored codes, after erasing the (unique) row matching
a code, no row with that code remains. -/
theorem no_match_after_eraseP (c : String) :
    ∀ (db : List URL), (db.map URL.short_code).Nodup →
      ∀ u ∈ db.eraseP (fun x => x.short_code == c), (u.short_code == c) = false := by
  intro db
  induction db with
  | nil =>
    intro _ u hu
    simp at hu
  | cons x rest ih =>
    intro hnd u hu
    rw [List.map_cons, List.nodup_cons] at hnd
    by_cases hx : (x.short_code == c) = true
    · rw [List.eraseP_cons, hx, cond_true] at hu
      by_cases huc : (u.short_code == c) = true
      · exfalso
        apply hnd.1
        have h1 : u.short_code = c := by simpa using huc
        have h2 : x.short_code = c := by simpa using hx
        rw [h2, ← h1]
        exact List.mem_map_of_mem URL.short_code hu
      · simpa using huc
    · rw [Bool.not_eq_true] at hx
      rw [List.eraseP_cons, hx, cond_false] at hu
      rcases List.mem_cons.mp hu with h | h
      · subst h
        simpa using hx
      · exact ih hnd.2 u h

/-- Claim C9: `delete_url` returns `true` exactly when a row with the
code is present in raw storage (no expiration check appears anywhere in
it — it consults neither TTL nor clock); afterwards no row with that
code remains, so a second identical call returns `false` and changes
nothing; deleting an absent code reports `false`. -/
theorem c9_remove_semantics (code : String) (db : List URL)
    (hnd : (db.map URL.short_code).Nodup) :
    ((delete_url code db).1 = true ↔ ∃ u ∈ db, u.short_code = code) ∧
    (∀ u ∈ (delete_url code db).2, (u.short_code == code) = false) ∧
    delete_url code (delete_url code db).2 = (false, (delete_url code db).2) := by
  have key : ∀ u ∈ (delete_url code db).2, (u.short_code == code) = false := by
    unfold delete_url
    cases hfind : URLRepository.get_by_short_code code db with
    | some v =>
      rw [delete_found code db v hfind]
      exact fun u hu => no_match_after_eraseP code db hnd u hu
    | none =>
      rw [delete_not_found code db hfind]
      intro u hu
      have := List.find?_eq_none.mp hfind u hu
      simpa using this
  refine ⟨?_, key, ?_⟩
  · unfold delete_url
    cases hfind : URLRepository.get_by_short_code code db with
    | some v =>
      rw [delete_found code db v hfind]
      simp only [true_iff]
      refine ⟨v, List.mem_of_find?_eq_some hfind, ?_⟩
      have := List.find?_some hfind
      simpa using this
    | none =>
      rw [delete_not_found code db hfind]
      simp only [Bool.false_eq_true, false_iff]
      rintro ⟨u, hu, hc⟩
      have := List.find?_eq_none.mp hfind u hu
      simp [hc] at this
  · have hnone2 : URLRepository.get_by_short_code code (delete_url code db).2 = none := by
      unfold URLRepository.get_by_short_code
      apply List.find?_eq_none.mpr
      intro u hu
      simp [key u hu]
    exact delete_not_found code ((delete_url code db).2) hnone2

/-- Witness for C9: one stored record; the first removal reports `true`,
the second reports `false`. -/
theorem c9_witness :
    (delete_url "abc123" [sampleURL]).1 = true ∧
    delete_url "abc123" (delete_url "abc123" [sampleURL]).2 =
      (false, (delete_url "abc123" [sampleURL]).2) :=
  ⟨(c9_remove_semantics "abc123" [sampleURL] (by decide)).1.mpr
      ⟨sampleURL, by decide, by decide⟩,
   (c9_remove_semantics "abc123" [sampleURL] (by decide)).2.2⟩

/-! ### C7: `listLive` semantics -/

/-- Invariant of the `get_all_urls` iteration: processing the snapshot
suffix `todo` against a database that still holds the already-kept
prefix followed by `todo`, the loop returns the non-expired part of
`todo` in order, leaves the database holding `kept` plus that part, and
issues one `delete_by_short_code` call per expired element, in order. -/
theorem get_all_urls_loop_spec (ttl : Nat) (now : Int) :
    ∀ (todo kept : List URL),
      ((kept ++ todo).map URL.short_code).Nodup →
      get_all_urls_loop ttl now todo (kept ++ todo) =
        (todo.filter (fun u => !is_url_expired u.created_at ttl now),
         kept ++ todo.filter (fun u => !is_url_expired u.created_at ttl now),
         (todo.filter (fun u => is_url_expired u.created_at ttl now)).map URL.short_code) := by
  intro todo
  induction todo with
  | nil =>
    intro kept hnd
    simp [get_all_urls_loop]
  | cons u rest ih =>
    intro kept hnd
    have hkept : ∀ b ∈ kept, (b.short_code == u.short_code) = false := by
      intro b hb
      have hmem : b.short_code ∈ kept.map URL.short_code :=
        List.mem_map_of_mem _ hb
      have humem : u.short_code ∈ (u :: rest).map URL.short_code := by simp
      rw [List.map_append, List.nodup_append] at hnd
      have hne : b.short_code ≠ u.short_code := by
        intro hcontra
        exact (hnd.2.2 hmem) (hcontra ▸ humem)
      simpa using hne
    by_cases hexp : is_url_expired u.created_at ttl now = true
    · have hfind : URLRepository.get_by_short_code u.short_code (kept ++ u :: rest) = some u := by
        unfold URLRepository.get_by_short_code
        rw [List.find?_append]
        have h1 : List.find? (fun x => x.short_code == u.short_code) kept = none := by
          apply List.find?_eq_none.mpr
          intro b hb
          simp [hkept b hb]
        rw [h1]
        simp [List.find?_cons]
      have hdel : (URLRepository.delete_by_short_code u.short_code (kept ++ u :: rest)).2 =
          kept ++ rest := by
        rw [delete_found _ _ u hfind]
        show List.eraseP (fun x => x.short_code == u.short_code) (kept ++ u :: rest) = kept ++ rest
        rw [List.eraseP_append_right (u :: rest) (by intro b hb; simp [hkept b hb])]
        rw [List.eraseP_cons]
        simp
      have hnd2 : ((kept ++ rest).map URL.short_code).Nodup := by
        apply List.Nodup.sublist _ hnd
        apply List.Sublist.map
        exact List.Sublist.append_left ((List.Sublist.refl rest).cons u) kept
      simp only [get_all_urls_loop, hexp, if_true, hdel, ih kept hnd2]
      simp [hexp]
    · rw [Bool.not_eq_true] at hexp
      have hassoc : kept ++ u :: rest = (kept ++ [u]) ++ rest := by simp
      have hnd2 : (((kept ++ [u]) ++ rest).map URL.short_code).Nodup := by
        rw [← hassoc]
        exact hnd
      simp only [get_all_urls_loop, hexp, Bool.false_eq_true, if_false]
      rw [hassoc, ih (kept ++ [u]) hnd2]
      simp [hexp]

/-- Claim C7: under the stored-codes-distinct invariant, `get_all_urls`
returns exactly the non-expired records in the order the store returned
them, leaves exactly the non-expired records in storage, and issues one
`delete_by_short_code` call per expired record (its code, in store
order).  No expired record appears in the result. -/
theorem c7_list_live (ttl : Nat) (now : Int) (db : List URL)
    (hnd : (db.map URL.short_code).Nodup) :
    get_all_urls ttl now db =
      (db.filter (fun u => !is_url_expired u.created_at ttl now),
       db.filter (fun u => !is_url_expired u.created_at ttl now),
       (db.filter (fun u => is_url_expired u.created_at ttl now)).map URL.short_code) := by
  have h := get_all_urls_loop_spec ttl now db [] (by simpa using hnd)
  simpa [get_all_urls, URLRepository.get_all] using h

/-- Witness for C7: one live and one expired record; the expired one is
returned nowhere, deleted from storage, and its code is the single
delete call. -/
theorem c7_witness :
    ((([⟨1, "https://a.com", "aaaaaa", PyDatetime.utc 0⟩,
        ⟨2, "https://b.com", "bbbbbb", PyDatetime.utc 30⟩] : List URL).map
          URL.short_code).Nodup) ∧
    get_all_urls 1 61
        [⟨1, "https://a.com", "aaaaaa", PyDatetime.utc 0⟩,
         ⟨2, "https://b.com", "bbbbbb", PyDatetime.utc 30⟩] =
      ([⟨2, "https://b.com", "bbbbbb", PyDatetime.utc 30⟩],
       [⟨2, "https://b.com", "bbbbbb", PyDatetime.utc 30⟩],
       ["aaaaaa"]) := by
  refine ⟨by decide, ?_⟩
  have h := c7_list_live 1 61
    [⟨1, "https://a.com", "aaaaaa", PyDatetime.utc 0⟩,
     ⟨2, "https://b.com", "bbbbbb", PyDatetime.utc 30⟩] (by decide)
  exact h.trans (by decide)

/-! ### Allocation against the real repository: C4 and C8 -/

/-- `short_code_exists` reports `false` exactly when no stored row
carries the code. -/
theorem short_code_exists_false (c : String) (db : List URL) :
    URLRepository.short_code_exists c db = false ↔ ∀ x ∈ db, x.short_code ≠ c := by
  unfold URLRepository.short_code_exists
  simp [List.filter_eq_nil_iff, List.length_pos]

/-- A successful run of the allocation loop over the real repository
appended exactly one row: the returned record, whose URL is the request,
whose `created_at` is the creation-time clock reading, and whose code
passed the `exists` pre-check against the prior database. -/
theorem allocLoop_listStore_ok (now : Int) (gen : Nat → String) (u : String) :
    ∀ (fuel attempt : Nat) (db db2 : List URL) (r : URL) (tr : List AllocEvent),
      allocLoop (listStore now) gen u db attempt fuel = (.ok (r, db2), tr) →
      db2 = db ++ [r] ∧ r.original_url = u ∧ r.created_at = PyDatetime.utc now ∧
        URLRepository.short_code_exists r.short_code db = false := by
  intro fuel
  induction fuel with
  | zero =>
    intro attempt db db2 r tr h
    simp [allocLoop] at h
  | succ n ih =>
    intro attempt db db2 r tr h
    simp only [allocLoop] at h
    by_cases hex : (listStore now).existsCode (gen attempt) db = true
    · rw [if_pos hex] at h
      rcases hres : allocLoop (listStore now) gen u db (attempt + 1) n with ⟨res1, res2⟩
      rw [hres] at h
      dsimp only at h
      rw [Prod.mk.injEq] at h
      exact ih (attempt + 1) db db2 r res2 (by rw [hres, h.1])
    · rw [if_neg hex] at h
      simp only [listStore] at h
      rw [Prod.mk.injEq, Except.ok.injEq, Prod.mk.injEq] at h
      obtain ⟨⟨hr, hdb2⟩, _⟩ := h
      rw [Bool.not_eq_true] at hex
      refine ⟨?_, ?_, ?_, ?_⟩
      · rw [← hdb2, ← hr]
        rfl
      · rw [← hr]
        rfl
      · rw [← hr]
        rfl
      · rw [← hr]
        exact hex

/-- The same, through `create_short_url`'s input validation. -/
theorem create_short_url_listStore_ok (now : Int) (gen : Nat → String)
    (u : String) (db db2 : List URL) (r : URL) (tr : List AllocEvent)
    (h : create_short_url (listStore now) gen u db = (.ok (r, db2), tr)) :
    db2 = db ++ [r] ∧ r.original_url = u ∧ r.created_at = PyDatetime.utc now ∧
      URLRepository.short_code_exists r.short_code db = false := by
  unfold create_short_url at h
  by_cases hu : (u == "" || (pyStrip u).length == 0) = true
  · rw [if_pos hu] at h
    simp at h
  · rw [if_neg hu] at h
    exact allocLoop_listStore_ok now gen u 10 0 db db2 r tr h

/-- Claim C8: resolving the code of a record just returned by a
successful `create_short_url` call, at any query time at which that
record is not yet expired, yields a record whose `original_url` is the
requested URL — in fact the very record the allocation returned. -/
theorem c8_round_trip (now now2 : Int) (ttl : Nat) (gen : Nat → String)
    (u : String) (db db2 : List URL) (r : URL) (tr : List AllocEvent)
    (halloc : create_short_url (listStore now) gen u db = (.ok (r, db2), tr))
    (hlive : is_url_expired r.created_at ttl now2 = false) :
    (get_url_by_code ttl now2 r.short_code db2).1 = some r ∧ r.original_url = u := by
  obtain ⟨hdb2, hurl, hca, hex⟩ :=
    create_short_url_listStore_ok now gen u db db2 r tr halloc
  subst hdb2
  have hnomatch : ∀ x ∈ db, x.short_code ≠ r.short_code :=
    (short_code_exists_false r.short_code db).mp hex
  have hfind : URLRepository.get_by_short_code r.short_code (db ++ [r]) = some r := by
    unfold URLRepository.get_by_short_code
    rw [List.find?_append]
    have h1 : List.find? (fun x => x.short_code == r.short_code) db = none := by
      apply List.find?_eq_none.mpr
      intro x hx
      simp [hnomatch x hx]
    rw [h1]
    simp [List.find?_cons]
  simp [get_url_by_code, hfind, hlive, hurl]

/-- Witness for C8: allocating `https://example.com` at clock 5 into an
empty store and resolving the returned code at clock 60 under TTL = 1
minute. -/
theorem c8_witness :
    (get_url_by_code 1 60 "abc123"
        [⟨1, "https://example.com", "abc123", PyDatetime.utc 5⟩]).1 =
      some ⟨1, "https://example.com", "abc123", PyDatetime.utc 5⟩ ∧
    (⟨1, "https://example.com", "abc123", PyDatetime.utc 5⟩ : URL).original_url =
      "https://example.com" :=
  c8_round_trip 5 60 1 (fun _ => "abc123") "https://example.com" []
    [⟨1, "https://example.com", "abc123", PyDatetime.utc 5⟩]
    ⟨1, "https://example.com", "abc123", PyDatetime.utc 5⟩
    [.genCall "abc123", .createCall "https://example.com" "abc123"] rfl rfl

/-- A sequence of `create_short_url` calls against the real repository:
each request carries its URL and its generator stream; successful
results are collected, failed calls leave the store unchanged.  Returns
the successfully allocated records and the final database. -/
def runAllocs (now : Int) :
    List (String × (Nat → String)) → List URL → List URL × List URL
  | [], db => ([], db)
  | (u, gen) :: rest, db =>
    match create_short_url (listStore now) gen u db with
    | (.ok (r, db2), _) =>
      let (rs, dbf) := runAllocs now rest db2
      (r :: rs, dbf)
    | (.error _, _) => runAllocs now rest db

/-- Codes allocated by a run are pairwise distinct and fresh relative to
the starting database. -/
theorem runAllocs_results_fresh (now : Int) :
    ∀ (reqs : List (String × (Nat → String))) (db : List URL),
      ((runAllocs now reqs db).1.map URL.short_code).Nodup ∧
      ∀ x ∈ (runAllocs now reqs db).1, x.short_code ∉ db.map URL.short_code := by
  intro reqs
  induction reqs with
  | nil =>
    intro db
    simp [runAllocs]
  | cons req rest ih =>
    intro db
    rcases req with ⟨u, gen⟩
    rcases halloc : create_short_url (listStore now) gen u db with ⟨res, tr⟩
    cases res with
    | error e =>
      simp only [runAllocs, halloc]
      exact ih db
    | ok p =>
      rcases p with ⟨r, db2⟩
      obtain ⟨hdb2, hurl, hca, hex⟩ :=
        create_short_url_listStore_ok now gen u db db2 r tr halloc
      subst hdb2
      have hnomatch : ∀ x ∈ db, x.short_code ≠ r.short_code :=
        (short_code_exists_false r.short_code db).mp hex
      have hrfresh : r.short_code ∉ db.map URL.short_code := by
        intro hmem
        obtain ⟨x, hx, hxc⟩ := List.mem_map.mp hmem
        exact hnomatch x hx hxc
      obtain ⟨ihnd, ihfresh⟩ := ih (db ++ [r])
      rcases hrun : runAllocs now rest (db ++ [r]) with ⟨rs, dbf⟩
      rw [hrun] at ihnd ihfresh
      simp only [runAllocs, halloc, hrun]
      constructor
      · rw [List.map_cons, List.nodup_cons]
        refine ⟨?_, ihnd⟩
        intro hmem
        obtain ⟨x, hx, hxc⟩ := List.mem_map.mp hmem
        apply ihfresh x hx
        rw [hxc, List.map_append]
        simp
      · intro x hx
        rcases List.mem_cons.mp hx with hx1 | hx2
        · subst hx1
          exact hrfresh
        · intro hmem
          apply ihfresh x hx2
          rw [List.map_append]
          exact List.mem_append_left _ hmem

/-- Each successful allocation appends a fresh code, so the
stored-codes-distinct invariant is preserved across a whole run. -/
theorem runAllocs_db_nodup (now : Int) :
    ∀ (reqs : List (String × (Nat → String))) (db : List URL),
      (db.map URL.short_code).Nodup →
      ((runAllocs now reqs db).2.map URL.short_code).Nodup := by
  intro reqs
  induction reqs with
  | nil =>
    intro db hnd
    simpa [runAllocs] using hnd
  | cons req rest ih =>
    intro db hnd
    rcases req with ⟨u, gen⟩
    rcases halloc : create_short_url (listStore now) gen u db with ⟨res, tr⟩
    cases res with
    | error e =>
      simp only [runAllocs, halloc]
      exact ih db hnd
    | ok p =>
      rcases p with ⟨r, db2⟩
      obtain ⟨hdb2, hurl, hca, hex⟩ :=
        create_short_url_listStore_ok now gen u db db2 r tr halloc
      subst hdb2
      have hnomatch : ∀ x ∈ db, x.short_code ≠ r.short_code :=
        (short_code_exists_false r.short_code db).mp hex
      have hnd2 : ((db ++ [r]).map URL.short_code).Nodup := by
        rw [List.map_append, List.nodup_append]
        refine ⟨hnd, by simp, ?_⟩
        intro c hc hc2
        simp only [List.map_cons, List.map_nil, List.mem_cons,
          List.not_mem_nil, or_false] at hc2
        subst hc2
        obtain ⟨x, hx, hxc⟩ := List.mem_map.mp hc
        exact hnomatch x hx hxc
      have hres := ih (db ++ [r]) hnd2
      rcases hrun : runAllocs now rest (db ++ [r]) with ⟨rs, dbf⟩
      rw [hrun] at hres
      simp only [runAllocs, halloc, hrun]
      exact hres

/-- Claim C4: starting from a database whose stored codes are pairwise
distinct, every sequence of successful `create_short_url` calls yields
pairwise-distinct `short_code` values, and the stored codes remain
pairwise distinct afterwards (so at no instant do two stored records
share a code). -/
theorem c4_uniqueness (now : Int) (reqs : List (String × (Nat → String)))
    (db : List URL) (hnd : (db.map URL.short_code).Nodup) :
    ((runAllocs now reqs db).1.map URL.short_code).Nodup ∧
    ((runAllocs now reqs db).2.map URL.short_code).Nodup :=
  ⟨(runAllocs_results_fresh now reqs db).1, runAllocs_db_nodup now reqs db hnd⟩

/-- A generator stream that always proposes `aaaaaa`. -/
def genA : Nat → String := fun _ => "aaaaaa"

/-- A generator stream whose first candidate collides with `aaaaaa` and
whose later candidates are `bbbbbb`, forcing one retry. -/
def genB : Nat → String := fun i => if i = 0 then "aaaaaa" else "bbbbbb"

/-- Witness for C4: two allocations into an empty store, the second
retrying past a collision; both result codes and the final stored codes
are pairwise distinct. -/
theorem c4_witness :
    ((runAllocs 5 [("https://a.com", genA), ("https://b.com", genB)] []).1.map
        URL.short_code).Nodup ∧
    ((runAllocs 5 [("https://a.com", genA), ("https://b.com", genB)] []).2.map
        URL.short_code).Nodup :=
  c4_uniqueness 5 [("https://a.com", genA), ("https://b.com", genB)] []
    (by decide)
